import Mathlib

/-!
Shallow embedding of the reachability-based safety-override controller
(sourceJS/reachable_sets.js, sourceJS/controllers.js, the obstacle landscape
file), with states and stored grid data modelled over the rationals.
JavaScript numbers that can be `undefined` (an unassigned array slot) or
non-finite (a division whose denominator is exactly zero produces NaN or
an infinity) are modelled as `Option ℚ`, with `none` standing for the
non-numeric outcome.
-/

namespace InteractiveDubins

/-- A safe set as used by the union operator and the intervention controller:
a value function and a gradient function over state vectors
(`SafeSet` subclasses in reachable_sets.js). -/
structure SafeSetM where
  value : List ℚ → ℚ
  gradV : List ℚ → List ℚ

/-- `UnionedSafeSet.value` (reachable_sets.js lines 25-34): evaluate both
children and return `valueA` when `valueA < valueB`, else `valueB`. -/
def unionValue (A B : SafeSetM) (states : List ℚ) : ℚ :=
  let valueA := A.value states
  let valueB := B.value states
  if valueA < valueB then valueA else valueB

/-- `UnionedSafeSet.gradV` (reachable_sets.js lines 36-45): re-evaluate both
children's values and return the gradient of the strictly smaller one,
`setB`'s gradient otherwise. -/
def unionGradV (A B : SafeSetM) (states : List ℚ) : List ℚ :=
  let valueA := A.value states
  let valueB := B.value states
  if valueA < valueB then A.gradV states else B.gradV states

/-- `Safe_Contr.dotProduct` (controllers.js lines 152-158): sum of pairwise
products over the indices of the first array.  Out-of-range reads of `b`
would be `undefined` in JS; the claims only use equal-length rows. -/
def dotProduct (a b : List ℚ) : ℚ :=
  (List.range a.length).foldl (fun sum i => sum + a.getD i 0 * b.getD i 0) 0

/-- `Safe_Contr.u` (controllers.js lines 136-150): for each row of the
robot's control-coefficient matrix, emit `+maxU` when the row-gradient dot
product is strictly positive and `-maxU` when strictly negative.  When the
dot product is exactly zero neither branch assigns `u_out[curU]`, so that
slot of the returned array is left `undefined`, modelled as `none`. -/
def safeContrU (maxU : ℚ) (coeff : List (List ℚ)) (momentum : List ℚ) :
    List (Option ℚ) :=
  coeff.map (fun row =>
    if dotProduct row momentum > 0 then some maxU
    else if dotProduct row momentum < 0 then some (-maxU)
    else none)

/-- `Intervention_Contr` (controllers.js lines 162-187): the intervening
safe set, the trigger level, the safety controller's parameters
(`maxU` and the robot's control-coefficient matrix), and the nominal
tracking controller's output for the current tick. -/
structure InterventionContrM where
  intervening_set : SafeSetM
  trigger_level : ℚ
  maxU : ℚ
  controlCoefficient : List (List ℚ)
  trackerU : List (Option ℚ)

/-- `Intervention_Contr.u` (controllers.js lines 175-186): when the safe
set's value at the robot state is strictly below `trigger_level`, return the
safe controller's output fed with the set's gradient; otherwise return the
tracker's output unmodified. -/
def interventionU (c : InterventionContrM) (states : List ℚ) :
    List (Option ℚ) :=
  if c.intervening_set.value states < c.trigger_level then
    safeContrU c.maxU c.controlCoefficient (c.intervening_set.gradV states)
  else
    c.trackerU

/-- An obstacle as seen by `Obstaclescape`: value and gradient queries taking
a palette `setID` and a global state, plus the collision-footprint value
(class `Obstacle` of the obstacle landscape file). -/
structure ObstacleM where
  value : ℤ → List ℚ → ℚ
  gradV : ℤ → List ℚ → List ℚ
  collisionSetValue : List ℚ → ℚ

/-- Placeholder obstacle used to totalise out-of-range list reads
(`this.obstacles[i]` on an empty or short list would be `undefined` in JS). -/
def ObstacleM.dummy : ObstacleM :=
  ⟨fun _ _ => 0, fun _ _ => [], fun _ => 0⟩

/-- `Obstaclescape` (obstacle landscape file lines 51-62): the obstacle list
with its two parallel flag arrays. -/
structure ObstaclescapeM where
  obstacles : List ObstacleM
  obstacleDestroyed : List Bool
  obstacleUndetected : List Bool

/-- Eligibility test used by `Obstaclescape.value` and `.gradV`:
`obstacleDestroyed[i] == false && obstacleUndetected[i] == false`.
A missing flag entry is `undefined` in JS and `undefined == false` is false,
so the defaults make a missing entry ineligible, as in the source. -/
def ObstaclescapeM.eligible (sc : ObstaclescapeM) (i : ℕ) : Bool :=
  !(sc.obstacleDestroyed.getD i true) && !(sc.obstacleUndetected.getD i true)

/-- Eligibility test used by `Obstaclescape.collisionSetValue`:
`obstacleDestroyed[i] == false && obstacleUndetected[i] == true`
(note the opposite polarity on the undetected flag).  A missing undetected
entry compares unequal to `true`, hence the `false` default there. -/
def ObstaclescapeM.collisionEligible (sc : ObstaclescapeM) (i : ℕ) : Bool :=
  !(sc.obstacleDestroyed.getD i true) && (sc.obstacleUndetected.getD i false)

/-- `Obstaclescape.value` (obstacle landscape file lines 83-97): running
minimum over the eligible obstacles' values, initialised to the
"preposterously large" sentinel 100. -/
def ObstaclescapeM.value (sc : ObstaclescapeM) (setID : ℤ)
    (states : List ℚ) : ℚ :=
  (List.range sc.obstacles.length).foldl
    (fun curMinValue obNum =>
      if sc.eligible obNum then
        let obsValue := (sc.obstacles.getD obNum ObstacleM.dummy).value setID states
        if obsValue < curMinValue then obsValue else curMinValue
      else curMinValue)
    100

/-- The scan inside `Obstaclescape.gradV` (obstacle landscape file lines
120-135): running pair of minimum value and dominant index, initialised to
`(100, 0)`, updated only on a strict decrease. -/
def ObstaclescapeM.gradScan (sc : ObstaclescapeM) (setID : ℤ)
    (states : List ℚ) : ℚ × ℕ :=
  (List.range sc.obstacles.length).foldl
    (fun acc obNum =>
      if sc.eligible obNum then
        let obsValue := (sc.obstacles.getD obNum ObstacleM.dummy).value setID states
        if obsValue < acc.1 then (obsValue, obNum) else acc
      else acc)
    (100, 0)

/-- `Obstaclescape.gradV` (obstacle landscape file lines 120-138): the
gradient of `obstacles[dominantObstacle]` where `dominantObstacle` comes
from the scan above (0 when never updated). -/
def ObstaclescapeM.gradV (sc : ObstaclescapeM) (setID : ℤ)
    (states : List ℚ) : List ℚ :=
  (sc.obstacles.getD (sc.gradScan setID states).2 ObstacleM.dummy).gradV setID states

/-- `Obstaclescape.collisionSetValue` (obstacle landscape file lines 99-117):
running pair of minimum collision-footprint value and its obstacle index over
the collision-eligible obstacles, initialised to `(100, 0)`. -/
def ObstaclescapeM.collisionSetValue (sc : ObstaclescapeM)
    (states : List ℚ) : ℚ × ℕ :=
  (List.range sc.obstacles.length).foldl
    (fun acc obNum =>
      if sc.collisionEligible obNum then
        let obsValue := (sc.obstacles.getD obNum ObstacleM.dummy).collisionSetValue states
        if obsValue < acc.1 then (obsValue, obNum) else acc
      else acc)
    (100, 0)

/-- The list of values of the union-eligible obstacles, in iteration order
(the quantity the specification's minimum ranges over). -/
def ObstaclescapeM.eligibleValues (sc : ObstaclescapeM) (setID : ℤ)
    (states : List ℚ) : List ℚ :=
  (List.range sc.obstacles.length).filterMap
    (fun i => if sc.eligible i then
        some ((sc.obstacles.getD i ObstacleM.dummy).value setID states)
      else none)

/-- The list of collision-footprint values of the collision-eligible
obstacles, in iteration order. -/
def ObstaclescapeM.collisionEligibleValues (sc : ObstaclescapeM)
    (states : List ℚ) : List ℚ :=
  (List.range sc.obstacles.length).filterMap
    (fun i => if sc.collisionEligible i then
        some ((sc.obstacles.getD i ObstacleM.dummy).collisionSetValue states)
      else none)

/-- Generic form of the running-minimum loop shared by `Obstaclescape.value`,
`.gradV` and `.collisionSetValue`: fold a guarded strict-decrease update over
the first `n` indices, starting from the sentinel 100. -/
def minFold (elig : ℕ → Bool) (v : ℕ → ℚ) (n : ℕ) : ℚ :=
  (List.range n).foldl
    (fun cur i => if elig i then (if v i < cur then v i else cur) else cur)
    100

/-- Generic form of the running (minimum value, argmin index) loop of
`Obstaclescape.gradV` and `.collisionSetValue`, starting from `(100, 0)` and
updating only on a strict decrease. -/
def minScanFold (elig : ℕ → Bool) (v : ℕ → ℚ) (n : ℕ) : ℚ × ℕ :=
  (List.range n).foldl
    (fun acc i => if elig i then (if v i < acc.1 then (v i, i) else acc) else acc)
    (100, 0)

/-- Generic form of the eligible-value lists above. -/
def filterVals (elig : ℕ → Bool) (v : ℕ → ℚ) (n : ℕ) : List ℚ :=
  (List.range n).filterMap (fun i => if elig i then some (v i) else none)

/-!
The grid-interpolated safe set `loaded_SafeSet` (reachable_sets.js lines
339-621).  The loaded JSON carries `gmin`, `gdx`, `gN`, `gperiodicity` and
the nested `data` array; nested indexing `data[i0][i1]...` is modelled as a
function from the index list.  Rational division is total in Lean (`x / 0 =
0`); the claims only exercise grids with nonzero spacing, where this agrees
with the source.
-/

/-- The loaded reachset record (`this.reachset` of `loaded_SafeSet`). -/
structure ReachsetM where
  gmin : List ℚ
  gdx : List ℚ
  gN : List ℤ
  gperiodicity : List Bool
  data : List ℤ → ℚ

/-- `lowEdgeIndex[d]` as first computed in `nearIndices` (reachable_sets.js
lines 458-461): `floor((states[d]-gmin[d])/gdx[d])`, before any wrapping. -/
def rawLowIdx (g : ReachsetM) (states : List ℚ) (d : ℕ) : ℤ :=
  ⌊(states.getD d 0 - g.gmin.getD d 0) / g.gdx.getD d 0⌋

/-- `highEdgeIndex[d]` as first computed in `nearIndices` (reachable_sets.js
lines 462-465): the corresponding ceiling, before any wrapping. -/
def rawHighIdx (g : ReachsetM) (states : List ℚ) (d : ℕ) : ℤ :=
  ⌈(states.getD d 0 - g.gmin.getD d 0) / g.gdx.getD d 0⌉

/-- `distanceToLower[d]` in `loaded_SafeSet.value` (reachable_sets.js lines
524-537), including the edge case: when the raw low and high indices
coincide the code overwrites the pair with `(1, 0)`. -/
def distanceToLower (g : ReachsetM) (states : List ℚ) (d : ℕ) : ℚ :=
  if rawLowIdx g states d = rawHighIdx g states d then 1
  else states.getD d 0 -
    (rawLowIdx g states d * g.gdx.getD d 0 + g.gmin.getD d 0)

/-- `distanceToHigher[d]` in `loaded_SafeSet.value` (reachable_sets.js lines
524-537), with the same grid-edge override to `(1, 0)`. -/
def distanceToHigher (g : ReachsetM) (states : List ℚ) (d : ℕ) : ℚ :=
  if rawLowIdx g states d = rawHighIdx g states d then 0
  else (rawHighIdx g states d * g.gdx.getD d 0 + g.gmin.getD d 0) -
    states.getD d 0

/-- The wrap/clamp correction applied to one index (reachable_sets.js lines
541-578): periodic axes add or subtract one period `gN[d]`, non-periodic
axes clamp into `[0, gN[d])`; the two `if`s run in sequence, as in the
source. -/
def wrapIdx (g : ReachsetM) (d : ℕ) (i : ℤ) : ℤ :=
  if g.gperiodicity.getD d false then
    let i1 := if i < 0 then i + g.gN.getD d 0 else i
    if g.gN.getD d 0 ≤ i1 then i1 - g.gN.getD d 0 else i1
  else
    let i1 := if i < 0 then 0 else i
    if g.gN.getD d 0 ≤ i1 then g.gN.getD d 0 - 1 else i1

/-- The nested-array index visited for one corner of the interpolation cell
(reachable_sets.js lines 592-605): bit `d` of `corner` selects the wrapped
high index along axis `d`, otherwise the wrapped low index. -/
def cornerIndex (g : ReachsetM) (states : List ℚ) (corner : ℕ) : List ℤ :=
  (List.range states.length).map (fun d =>
    if corner.testBit d then wrapIdx g d (rawHighIdx g states d)
    else wrapIdx g d (rawLowIdx g states d))

/-- The interpolation weight of one corner (reachable_sets.js lines 587-605):
product over the axes of the distance to the opposite cell face. -/
def cornerVolume (g : ReachsetM) (states : List ℚ) (corner : ℕ) : ℚ :=
  ∏ d ∈ Finset.range states.length,
    (if corner.testBit d then distanceToLower g states d
      else distanceToHigher g states d)

/-- `loaded_SafeSet.value` (reachable_sets.js lines 518-620): sum the
corner values of the enclosing cell weighted by the opposite volumes over
all `2^D` corners, then normalize by the product of the grid spacings. -/
def loadedValue (g : ReachsetM) (states : List ℚ) : ℚ :=
  (∑ corner ∈ Finset.range (2 ^ states.length),
      cornerVolume g states corner * g.data (cornerIndex g states corner)) /
    ∏ d ∈ Finset.range states.length, g.gdx.getD d 0

/-!
Analytic gradients with an exactly-zero denominator (claims about
non-finite outputs).  JavaScript `x / 0` is `NaN` or an infinity; `jsDiv`
returns `none` exactly when the denominator is zero.
-/

/-- Division as performed by the source on JS numbers: `none` models the
non-finite result (`NaN` or `±Infinity`) produced when the denominator is
exactly zero. -/
def jsDiv (a b : ℚ) : Option ℚ := if b = 0 then none else some (a / b)

/-- Real-valued version of `jsDiv`, for the circle set whose norm involves a
square root. -/
noncomputable def jsDivR (a b : ℝ) : Option ℝ :=
  if b = 0 then none else some (a / b)

/-- `dubIntInterval_Set.gradV` (reachable_sets.js lines 329-332):
`norm = |states[0]|`, returning `[states[0]/norm, 0]`. -/
def dubIntInterval_gradV (states : List ℚ) : List (Option ℚ) :=
  let norm := |states.getD 0 0|
  [jsDiv (states.getD 0 0) norm, some 0]

/-- `dubinsCircle_Set.gradV` (reachable_sets.js lines 289-292):
`norm = (states[0]^2 + states[1]^2)^0.5`, returning
`[states[0]/norm, states[1]/norm, 0]`.  The square root forces the
real-number model for this one definition. -/
noncomputable def dubinsCircle_gradV (states : List ℝ) : List (Option ℝ) :=
  let norm := Real.sqrt (states.getD 0 0 ^ 2 + states.getD 1 0 ^ 2)
  [jsDivR (states.getD 0 0) norm, jsDivR (states.getD 1 0) norm, some 0]

/-!
Concrete instances used to evaluate the definitions at specific inputs.
-/

/-- One-axis grid with spacing 2: `gmin=[0]`, `gdx=[2]`, `gN=[2]`,
non-periodic, stored data `[4, 8]`. -/
def gridSpacingTwo : ReachsetM :=
  ⟨[0], [2], [2], [false], fun idx => if idx = [1] then 8 else 4⟩

/-- One-axis periodic grid: `gmin=[0]`, `gdx=[1]`, `gN=[4]`, stored data
`[3, 5, 7, 11]`. -/
def gridPeriodicFour : ReachsetM :=
  ⟨[0], [1], [4], [true],
    fun idx =>
      if idx = [0] then 3 else if idx = [1] then 5
      else if idx = [2] then 7 else 11⟩

/-- The two-axis grid of the specification's interpolation scenario:
`gmin=[-1,-1]`, `gdx=[1,1]`, `gN=[3,3]`, non-periodic, `data[1][1]=0` and 1
elsewhere. -/
def gridScenario : ReachsetM :=
  ⟨[-1, -1], [1, 1], [3, 3], [false, false],
    fun idx => if idx = [1, 1] then 0 else 1⟩

/-- Safe set with constant value 0 and gradient `[1]`. -/
def setGradOne : SafeSetM := ⟨fun _ => 0, fun _ => [1]⟩

/-- Safe set with constant value 0 and gradient `[2]`: ties `setGradOne`. -/
def setGradTwo : SafeSetM := ⟨fun _ => 0, fun _ => [2]⟩

/-- Intervention controller whose safe set sits at value 1/20, below the
trigger level 1/10. -/
def contrBelow : InterventionContrM :=
  ⟨⟨fun _ => 1/20, fun _ => [1, 0]⟩, 1/10, 1, [[1, 0]], [some 0]⟩

/-- Intervention controller whose safe set sits at value 1/5, above the
trigger level 1/10. -/
def contrAbove : InterventionContrM :=
  ⟨⟨fun _ => 1/5, fun _ => [1, 0]⟩, 1/10, 1, [[1, 0]], [some 0]⟩

/-- Obstacle with constant avoidance value 150 and gradient `[2]`, and
collision-footprint value 150. -/
def obstacleFar : ObstacleM :=
  ⟨fun _ _ => 150, fun _ _ => [2], fun _ => 150⟩

/-- Obstacle with constant avoidance value 5 and gradient `[3]`, and
collision-footprint value 7. -/
def obstacleNear : ObstacleM :=
  ⟨fun _ _ => 5, fun _ _ => [3], fun _ => 7⟩

/-- Obstacle with gradient `[1]`, used as an ineligible first entry. -/
def obstacleDead : ObstacleM :=
  ⟨fun _ _ => 0, fun _ _ => [1], fun _ => 0⟩

/-- Scape with the single eligible obstacle `obstacleFar` (value 150). -/
def scapeFar : ObstaclescapeM := ⟨[obstacleFar], [false], [false]⟩

/-- Scape with no obstacles at all. -/
def scapeEmpty : ObstaclescapeM := ⟨[], [], []⟩

/-- Scape whose first obstacle is destroyed and whose second obstacle is
eligible with value 150 (above the sentinel 100). -/
def scapeDeadFar : ObstaclescapeM :=
  ⟨[obstacleDead, obstacleFar], [true, false], [false, false]⟩

/-- Scape with the single eligible obstacle `obstacleNear` (value 5). -/
def scapeNear : ObstaclescapeM := ⟨[obstacleNear], [false], [false]⟩

/-- Scape whose single obstacle is undetected (collision-eligible) with
footprint value 150. -/
def scapeHiddenFar : ObstaclescapeM := ⟨[obstacleFar], [false], [true]⟩

/-- Scape whose single obstacle is undetected (collision-eligible) with
footprint value 7. -/
def scapeHiddenNear : ObstaclescapeM := ⟨[obstacleNear], [false], [true]⟩

/-- Scape with one destroyed obstacle: nothing is eligible for the union. -/
def scapeAllDead : ObstaclescapeM := ⟨[obstacleNear], [true], [false]⟩

/-!
Lemmas about the running-minimum folds.
-/

/-- `Obstaclescape.value` is the generic guarded minimum fold. -/
lemma ObstaclescapeM.value_eq_minFold (sc : ObstaclescapeM) (setID : ℤ)
    (states : List ℚ) :
    sc.value setID states =
      minFold sc.eligible
        (fun i => (sc.obstacles.getD i ObstacleM.dummy).value setID states)
        sc.obstacles.length := rfl

/-- The scan inside `Obstaclescape.gradV` is the generic guarded argmin
fold. -/
lemma ObstaclescapeM.gradScan_eq_minScanFold (sc : ObstaclescapeM) (setID : ℤ)
    (states : List ℚ) :
    sc.gradScan setID states =
      minScanFold sc.eligible
        (fun i => (sc.obstacles.getD i ObstacleM.dummy).value setID states)
        sc.obstacles.length := rfl

/-- `Obstaclescape.collisionSetValue` is the generic guarded argmin fold over
the collision filter. -/
lemma ObstaclescapeM.collision_eq_minScanFold (sc : ObstaclescapeM)
    (states : List ℚ) :
    sc.collisionSetValue states =
      minScanFold sc.collisionEligible
        (fun i => (sc.obstacles.getD i ObstacleM.dummy).collisionSetValue states)
        sc.obstacles.length := rfl

/-- The eligible-value list is the generic filtered list. -/
lemma ObstaclescapeM.eligibleValues_eq_filterVals (sc : ObstaclescapeM)
    (setID : ℤ) (states : List ℚ) :
    sc.eligibleValues setID states =
      filterVals sc.eligible
        (fun i => (sc.obstacles.getD i ObstacleM.dummy).value setID states)
        sc.obstacles.length := rfl

/-- Peeling the last index off `minFold`. -/
lemma minFold_succ (elig : ℕ → Bool) (v : ℕ → ℚ) (n : ℕ) :
    minFold elig v (n + 1) =
      (if elig n then
        (if v n < minFold elig v n then v n else minFold elig v n)
      else minFold elig v n) := by
  unfold minFold
  rw [List.range_succ, List.foldl_append]
  rfl

/-- Peeling the last index off `minScanFold`. -/
lemma minScanFold_succ (elig : ℕ → Bool) (v : ℕ → ℚ) (n : ℕ) :
    minScanFold elig v (n + 1) =
      (if elig n then
        (if v n < (minScanFold elig v n).1 then (v n, n)
          else minScanFold elig v n)
      else minScanFold elig v n) := by
  unfold minScanFold
  rw [List.range_succ, List.foldl_append]
  rfl

/-- Peeling the last index off `filterVals`. -/
lemma filterVals_succ (elig : ℕ → Bool) (v : ℕ → ℚ) (n : ℕ) :
    filterVals elig v (n + 1) =
      filterVals elig v n ++ (if elig n then [v n] else []) := by
  unfold filterVals
  rw [List.range_succ, List.filterMap_append]
  congr 1
  cases h : elig n <;> simp [h]

/-- The guarded minimum fold computes the left fold of `min` over the
filtered value list, seeded with the sentinel 100. -/
lemma minFold_eq_foldl_min (elig : ℕ → Bool) (v : ℕ → ℚ) (n : ℕ) :
    minFold elig v n = (filterVals elig v n).foldl min 100 := by
  induction n with
  | zero => rfl
  | succ n ih =>
    rw [minFold_succ, filterVals_succ, List.foldl_append, ← ih]
    rcases Bool.eq_false_or_eq_true (elig n) with h | h
    · rw [if_pos h, if_pos h, List.foldl_cons, List.foldl_nil]
      rcases lt_or_le (v n) (minFold elig v n) with hlt | hle
      · rw [if_pos hlt, min_eq_right hlt.le]
      · rw [if_neg (not_lt.mpr hle), min_eq_left hle]
    · have h' : ¬(elig n = true) := by simp [h]
      rw [if_neg h', if_neg h']
      rfl

/-- With no eligible index, `minFold` stays at the sentinel. -/
lemma minFold_of_no_elig (elig : ℕ → Bool) (v : ℕ → ℚ) (n : ℕ)
    (h : ∀ i, i < n → elig i = false) : minFold elig v n = 100 := by
  induction n with
  | zero => rfl
  | succ n ih =>
    rw [minFold_succ, h n (Nat.lt_succ_self n),
      ih (fun i hi => h i (hi.trans (Nat.lt_succ_self n)))]
    simp

/-- With no eligible index, `minScanFold` stays at the initial pair. -/
lemma minScanFold_of_no_elig (elig : ℕ → Bool) (v : ℕ → ℚ) (n : ℕ)
    (h : ∀ i, i < n → elig i = false) : minScanFold elig v n = (100, 0) := by
  induction n with
  | zero => rfl
  | succ n ih =>
    rw [minScanFold_succ, h n (Nat.lt_succ_self n),
      ih (fun i hi => h i (hi.trans (Nat.lt_succ_self n)))]
    simp

/-- Full invariant of the argmin scan: its first component is the guarded
minimum fold; the minimum never exceeds the sentinel and bounds every
eligible value; and either no strict decrease ever fired (value 100, index
0), or the recorded index is the first eligible index attaining the
minimum. -/
lemma minScanFold_spec (elig : ℕ → Bool) (v : ℕ → ℚ) (n : ℕ) :
    (minScanFold elig v n).1 = minFold elig v n ∧
    minFold elig v n ≤ 100 ∧
    (∀ j, j < n → elig j = true → minFold elig v n ≤ v j) ∧
    ((minFold elig v n = 100 ∧ minScanFold elig v n = (100, 0)) ∨
      ((minScanFold elig v n).2 < n ∧
        elig (minScanFold elig v n).2 = true ∧
        v (minScanFold elig v n).2 = minFold elig v n ∧
        minFold elig v n < 100 ∧
        (∀ j, j < (minScanFold elig v n).2 → elig j = true →
          minFold elig v n < v j))) := by
  induction n with
  | zero =>
    refine ⟨rfl, le_refl _, fun j hj => absurd hj (Nat.not_lt_zero j), Or.inl ⟨rfl, rfl⟩⟩
  | succ n ih =>
    obtain ⟨ihfst, ihle, ihbound, ihcase⟩ := ih
    rw [minFold_succ, minScanFold_succ]
    rcases Bool.eq_false_or_eq_true (elig n) with helig | helig
    case inr =>
      have helig' : ¬(elig n = true) := by simp [helig]
      rw [if_neg helig', if_neg helig']
      refine ⟨ihfst, ihle, ?_, ?_⟩
      · intro j hj hj'
        rcases Nat.lt_succ_iff_lt_or_eq.mp hj with h | h
        · exact ihbound j h hj'
        · rw [h] at hj'; rw [helig] at hj'; exact absurd hj' (by simp)
      · rcases ihcase with h | ⟨hlt, he, hv, hsmall, hfirst⟩
        · exact Or.inl h
        · exact Or.inr ⟨hlt.trans (Nat.lt_succ_self n), he, hv, hsmall, hfirst⟩
    case inl =>
      rw [if_pos helig, if_pos helig, ihfst]
      rcases lt_or_le (v n) (minFold elig v n) with hdec | hnodec
      · rw [if_pos hdec, if_pos hdec]
        refine ⟨rfl, (hdec.le.trans ihle), ?_, ?_⟩
        · intro j hj hj'
          rcases Nat.lt_succ_iff_lt_or_eq.mp hj with h | h
          · exact (hdec.le.trans (ihbound j h hj'))
          · rw [h]
        · refine Or.inr ⟨Nat.lt_succ_self n, helig, rfl, lt_of_lt_of_le hdec ihle, ?_⟩
          intro j hj hj'
          exact lt_of_lt_of_le hdec (ihbound j hj hj')
      · have hnodec' : ¬(v n < minFold elig v n) := not_lt.mpr hnodec
        rw [if_neg hnodec', if_neg hnodec']
        refine ⟨ihfst, ihle, ?_, ?_⟩
        · intro j hj hj'
          rcases Nat.lt_succ_iff_lt_or_eq.mp hj with h | h
          · exact ihbound j h hj'
          · rw [h]; exact hnodec
        · rcases ihcase with ⟨h1, h2⟩ | ⟨hlt, he, hv, hsmall, hfirst⟩
          · exact Or.inl ⟨h1, h2⟩
          · exact Or.inr ⟨hlt.trans (Nat.lt_succ_self n), he, hv, hsmall, hfirst⟩

/-!
Lemmas about the grid interpolation under a one-period shift along a
periodic axis.
-/

/-- The raw low index only depends on the state's coordinate on that axis. -/
lemma rawLowIdx_congr (g : ReachsetM) (s s' : List ℚ) (e : ℕ)
    (h : s'.getD e 0 = s.getD e 0) : rawLowIdx g s' e = rawLowIdx g s e := by
  unfold rawLowIdx; rw [h]

/-- The raw high index only depends on the state's coordinate on that axis. -/
lemma rawHighIdx_congr (g : ReachsetM) (s s' : List ℚ) (e : ℕ)
    (h : s'.getD e 0 = s.getD e 0) : rawHighIdx g s' e = rawHighIdx g s e := by
  unfold rawHighIdx; rw [h]

/-- Shifting the coordinate on axis `d` by `gN[d]*gdx[d]` shifts the raw low
index by `gN[d]`. -/
lemma rawLowIdx_shift (g : ReachsetM) (s s' : List ℚ) (d : ℕ)
    (hdx : g.gdx.getD d 0 ≠ 0)
    (hshift : s'.getD d 0 = s.getD d 0 + (g.gN.getD d 0 : ℚ) * g.gdx.getD d 0) :
    rawLowIdx g s' d = rawLowIdx g s d + g.gN.getD d 0 := by
  unfold rawLowIdx
  rw [hshift]
  have hq : (s.getD d 0 + (g.gN.getD d 0 : ℚ) * g.gdx.getD d 0 - g.gmin.getD d 0)
        / g.gdx.getD d 0
      = (s.getD d 0 - g.gmin.getD d 0) / g.gdx.getD d 0 + (g.gN.getD d 0 : ℚ) := by
    have harr : s.getD d 0 + (g.gN.getD d 0 : ℚ) * g.gdx.getD d 0 - g.gmin.getD d 0
        = (s.getD d 0 - g.gmin.getD d 0) + (g.gN.getD d 0 : ℚ) * g.gdx.getD d 0 := by
      ring
    rw [harr, add_div, mul_div_assoc, div_self hdx, mul_one]
  rw [hq, Int.floor_add_int]

/-- Shifting the coordinate on axis `d` by `gN[d]*gdx[d]` shifts the raw high
index by `gN[d]`. -/
lemma rawHighIdx_shift (g : ReachsetM) (s s' : List ℚ) (d : ℕ)
    (hdx : g.gdx.getD d 0 ≠ 0)
    (hshift : s'.getD d 0 = s.getD d 0 + (g.gN.getD d 0 : ℚ) * g.gdx.getD d 0) :
    rawHighIdx g s' d = rawHighIdx g s d + g.gN.getD d 0 := by
  unfold rawHighIdx
  rw [hshift]
  have hq : (s.getD d 0 + (g.gN.getD d 0 : ℚ) * g.gdx.getD d 0 - g.gmin.getD d 0)
        / g.gdx.getD d 0
      = (s.getD d 0 - g.gmin.getD d 0) / g.gdx.getD d 0 + (g.gN.getD d 0 : ℚ) := by
    have harr : s.getD d 0 + (g.gN.getD d 0 : ℚ) * g.gdx.getD d 0 - g.gmin.getD d 0
        = (s.getD d 0 - g.gmin.getD d 0) + (g.gN.getD d 0 : ℚ) * g.gdx.getD d 0 := by
      ring
    rw [harr, add_div, mul_div_assoc, div_self hdx, mul_one]
  rw [hq, Int.ceil_add_int]

/-- The distance to the lower cell face is invariant under a one-period
shift on axis `d`. -/
lemma distanceToLower_shift (g : ReachsetM) (s s' : List ℚ) (d : ℕ)
    (hdx : g.gdx.getD d 0 ≠ 0)
    (hshift : s'.getD d 0 = s.getD d 0 + (g.gN.getD d 0 : ℚ) * g.gdx.getD d 0) :
    distanceToLower g s' d = distanceToLower g s d := by
  unfold distanceToLower
  rw [rawLowIdx_shift g s s' d hdx hshift, rawHighIdx_shift g s s' d hdx hshift,
    hshift]
  by_cases hEq : rawLowIdx g s d = rawHighIdx g s d
  · rw [if_pos (by rw [hEq]), if_pos hEq]
  · rw [if_neg (fun hc => hEq (add_right_cancel hc)), if_neg hEq]
    push_cast
    ring

/-- The distance to the higher cell face is invariant under a one-period
shift on axis `d`. -/
lemma distanceToHigher_shift (g : ReachsetM) (s s' : List ℚ) (d : ℕ)
    (hdx : g.gdx.getD d 0 ≠ 0)
    (hshift : s'.getD d 0 = s.getD d 0 + (g.gN.getD d 0 : ℚ) * g.gdx.getD d 0) :
    distanceToHigher g s' d = distanceToHigher g s d := by
  unfold distanceToHigher
  rw [rawLowIdx_shift g s s' d hdx hshift, rawHighIdx_shift g s s' d hdx hshift,
    hshift]
  by_cases hEq : rawLowIdx g s d = rawHighIdx g s d
  · rw [if_pos (by rw [hEq]), if_pos hEq]
  · rw [if_neg (fun hc => hEq (add_right_cancel hc)), if_neg hEq]
    push_cast
    ring

/-- On a periodic axis, an index already inside `[0, gN[d])` is unchanged by
the wrap correction. -/
lemma wrapIdx_of_mem (g : ReachsetM) (d : ℕ) (i : ℤ)
    (hper : g.gperiodicity.getD d false = true)
    (h0 : 0 ≤ i) (hN : i < g.gN.getD d 0) : wrapIdx g d i = i := by
  simp only [wrapIdx, hper, eq_self_iff_true, if_true]
  split_ifs <;> omega

/-- On a periodic axis, an index one period above `[0, gN[d])` is wrapped
back down to its representative. -/
lemma wrapIdx_shift_down (g : ReachsetM) (d : ℕ) (i : ℤ)
    (hper : g.gperiodicity.getD d false = true)
    (h0 : 0 ≤ i) (hN : i < g.gN.getD d 0) :
    wrapIdx g d (i + g.gN.getD d 0) = i := by
  simp only [wrapIdx, hper, eq_self_iff_true, if_true]
  split_ifs <;> omega

/-!
Model validation against the specification's worked interpolation scenario
(grid `gmin=[-1,-1]`, `gdx=[1,1]`, `gN=[3,3]`, `data[1][1]=0`, others 1).
-/

example : loadedValue gridScenario [0, 0] = 0 := by
  norm_num +decide [loadedValue, cornerVolume, cornerIndex, distanceToLower,
    distanceToHigher, rawLowIdx, rawHighIdx, wrapIdx, gridScenario,
    Finset.sum_range_succ, Finset.prod_range_succ,
    Finset.sum_range_zero, Finset.prod_range_zero, List.getD,
    List.range_succ, Int.floor_eq_iff, Int.ceil_eq_iff]

example : loadedValue gridScenario [-1, -1] = 1 := by
  norm_num +decide [loadedValue, cornerVolume, cornerIndex, distanceToLower,
    distanceToHigher, rawLowIdx, rawHighIdx, wrapIdx, gridScenario,
    Finset.sum_range_succ, Finset.prod_range_succ,
    Finset.sum_range_zero, Finset.prod_range_zero, List.getD,
    List.range_succ, Int.floor_eq_iff, Int.ceil_eq_iff]

example : loadedValue gridScenario [-1/2, -1/2] = 3/4 := by
  have hfl : ⌊(1:ℚ)/2⌋ = 0 := by norm_num [Int.floor_eq_iff]
  have hcl : ⌈(1:ℚ)/2⌉ = 1 := by norm_num [Int.ceil_eq_iff]
  norm_num +decide [loadedValue, cornerVolume, cornerIndex, distanceToLower,
    distanceToHigher, rawLowIdx, rawHighIdx, wrapIdx, gridScenario,
    Finset.sum_range_succ, Finset.prod_range_succ,
    Finset.sum_range_zero, Finset.prod_range_zero, List.getD,
    List.range_succ, hfl, hcl]

/-!
The claims.
-/

/-- C1: the claim says a grid-aligned query returns exactly the stored
datum; on the grid with spacing 2 the state `[2]` lies exactly on grid
index 1 (`gmin + 1*gdx`), where the code returns the stored datum divided
by the product of the grid spacings (4 instead of the stored 8), because
the grid-edge case sets the interpolation distances to `(1, 0)` but the
result is still normalized by `gdx`. -/
theorem C1_grid_aligned_value_not_stored :
    (2 : ℚ) = gridSpacingTwo.gmin.getD 0 0 + 1 * gridSpacingTwo.gdx.getD 0 0 ∧
    gridSpacingTwo.data [1] = 8 ∧
    loadedValue gridSpacingTwo [2] = 4 ∧
    loadedValue gridSpacingTwo [2] ≠ gridSpacingTwo.data [1] := by
  have hval : loadedValue gridSpacingTwo [2] = 4 := by
    norm_num +decide [loadedValue, cornerVolume, cornerIndex, distanceToLower,
      distanceToHigher, rawLowIdx, rawHighIdx, wrapIdx, gridSpacingTwo,
      Finset.sum_range_succ, Finset.prod_range_succ,
      Finset.sum_range_zero, Finset.prod_range_zero, List.getD,
      List.range_succ, Int.floor_eq_iff, Int.ceil_eq_iff]
  have hdata : gridSpacingTwo.data [1] = 8 := by decide
  refine ⟨by norm_num [gridSpacingTwo, List.getD], hdata, hval, ?_⟩
  rw [hval, hdata]
  decide

/-- C2: the union's value is the pointwise minimum of the two children, and
its gradient is the gradient of the child with the strictly smaller value,
the second child's gradient otherwise — so ties go to `setB`. -/
theorem C2_union_min_and_dominant_gradient (A B : SafeSetM) (s : List ℚ) :
    unionValue A B s = min (A.value s) (B.value s) ∧
    (A.value s < B.value s → unionGradV A B s = A.gradV s) ∧
    (¬ A.value s < B.value s → unionGradV A B s = B.gradV s) := by
  refine ⟨?_, ?_, ?_⟩
  · simp only [unionValue]
    rcases lt_or_le (A.value s) (B.value s) with h | h
    · rw [if_pos h, min_eq_left h.le]
    · rw [if_neg (not_lt.mpr h), min_eq_right h]
  · intro h
    simp only [unionGradV]
    rw [if_pos h]
  · intro h
    simp only [unionGradV]
    rw [if_neg h]

/-- C2 witness: two sets with equal values (a tie): the union's value is the
minimum and the gradient is the second operand's. -/
theorem C2_union_tie_witness :
    unionValue setGradOne setGradTwo [] =
      min (setGradOne.value []) (setGradTwo.value []) ∧
    unionGradV setGradOne setGradTwo [] = setGradTwo.gradV [] :=
  ⟨(C2_union_min_and_dominant_gradient setGradOne setGradTwo []).1,
    (C2_union_min_and_dominant_gradient setGradOne setGradTwo []).2.2 (by decide)⟩

/-- C3: the claim says the safe controller outputs exactly 0 on an axis
whose coefficient-gradient dot product is exactly zero; in the code neither
branch assigns `u_out[curU]` in that case, so the slot is left `undefined`
(`none`), not 0 — shown here with the vertical quadrotor's coefficient row
`[0,1]` and a gradient `[5,0]` whose dot product is zero.  The strictly
positive and strictly negative cases do behave as claimed. -/
theorem C3_bang_bang_zero_dot_unassigned :
    dotProduct [0, 1] [5, 0] = 0 ∧
    safeContrU 1 [[0, 1]] [5, 0] = [none] ∧
    safeContrU 1 [[0, 1]] [5, 0] ≠ [some 0] ∧
    safeContrU 1 [[0, 1]] [5, 2] = [some 1] ∧
    safeContrU 1 [[0, 1]] [5, -2] = [some (-1)] := by
  have h0 : safeContrU 1 [[0, 1]] [5, 0] = [none] := by
    norm_num [safeContrU, dotProduct, List.range_succ]
  refine ⟨by norm_num [dotProduct, List.range_succ], h0, ?_,
    by norm_num [safeContrU, dotProduct, List.range_succ],
    by norm_num [safeContrU, dotProduct, List.range_succ]⟩
  rw [h0]
  decide

/-- C4: on each tick the intervention controller returns the safe
controller's output (fed with the intervening set's gradient) exactly when
the safety value is strictly below the trigger level, and the tracker's
output unmodified otherwise. -/
theorem C4_intervention_trigger_dispatch (c : InterventionContrM)
    (s : List ℚ) :
    (c.intervening_set.value s < c.trigger_level →
      interventionU c s =
        safeContrU c.maxU c.controlCoefficient (c.intervening_set.gradV s)) ∧
    (¬ c.intervening_set.value s < c.trigger_level →
      interventionU c s = c.trackerU) := by
  constructor
  · intro h
    simp only [interventionU]
    rw [if_pos h]
  · intro h
    simp only [interventionU]
    rw [if_neg h]

/-- C4 witness: with trigger level 1/10, a safety value of 1/20 takes the
override branch and a safety value of 1/5 takes the tracking branch. -/
theorem C4_intervention_dispatch_witness :
    contrBelow.intervening_set.value [] < contrBelow.trigger_level ∧
    interventionU contrBelow [] =
      safeContrU contrBelow.maxU contrBelow.controlCoefficient
        (contrBelow.intervening_set.gradV []) ∧
    ¬ contrAbove.intervening_set.value [] < contrAbove.trigger_level ∧
    interventionU contrAbove [] = contrAbove.trackerU :=
  ⟨by norm_num [contrBelow],
    (C4_intervention_trigger_dispatch contrBelow []).1 (by norm_num [contrBelow]),
    by norm_num [contrAbove],
    (C4_intervention_trigger_dispatch contrAbove []).2 (by norm_num [contrAbove])⟩

/-- C5 counterexample: a single eligible obstacle of value 150: the claimed
minimum over eligible obstacles is 150, but the code returns 100 because
the running minimum starts at the sentinel 100. -/
theorem C5_value_capped_at_sentinel_cex :
    scapeFar.eligibleValues 0 [] = [150] ∧
    ObstaclescapeM.value scapeFar 0 [] = 100 ∧
    ObstaclescapeM.value scapeFar 0 [] ≠ 150 := by
  refine ⟨by decide, by decide, by decide⟩

/-- C5 amended: `Obstaclescape.value` equals the minimum of the sentinel
100 and the eligible obstacles' values (the eligible minimum clamped above
at 100); with no eligible obstacle it returns the sentinel 100. -/
theorem C5_value_min_with_sentinel (sc : ObstaclescapeM) (setID : ℤ)
    (s : List ℚ) :
    sc.value setID s = (sc.eligibleValues setID s).foldl min 100 ∧
    (sc.eligibleValues setID s = [] → sc.value setID s = 100) := by
  have h := minFold_eq_foldl_min sc.eligible
    (fun i => (sc.obstacles.getD i ObstacleM.dummy).value setID s)
    sc.obstacles.length
  constructor
  · rw [sc.value_eq_minFold setID s, sc.eligibleValues_eq_filterVals setID s]
    exact h
  · intro hempty
    rw [sc.value_eq_minFold setID s, h,
      ← sc.eligibleValues_eq_filterVals setID s, hempty]
    rfl

/-- C5 witness: on a scape with no obstacles the eligible list is empty and
the value is the sentinel 100. -/
theorem C5_value_min_with_sentinel_witness :
    scapeEmpty.eligibleValues 0 [] = [] ∧
    ObstaclescapeM.value scapeEmpty 0 [] = 100 :=
  ⟨by decide, (C5_value_min_with_sentinel scapeEmpty 0 []).2 (by decide)⟩

/-- C6 counterexample: obstacle 0 is destroyed (gradient `[1]`) and
obstacle 1 is the unique eligible obstacle, with value 150 and gradient
`[2]`; the claim says the gradient of obstacle 1 is returned, but the code
never updates its dominant index (150 is not below the sentinel 100) and
returns the destroyed obstacle 0's gradient. -/
theorem C6_gradV_fallback_cex :
    scapeDeadFar.eligible 0 = false ∧
    scapeDeadFar.eligible 1 = true ∧
    ObstaclescapeM.gradV scapeDeadFar 0 [] = [1] ∧
    (scapeDeadFar.obstacles.getD 1 ObstacleM.dummy).gradV 0 [] = [2] ∧
    ObstaclescapeM.gradV scapeDeadFar 0 [] ≠
      (scapeDeadFar.obstacles.getD 1 ObstacleM.dummy).gradV 0 [] := by
  refine ⟨by decide, by decide, by decide, by decide, by decide⟩

/-- C6 amended: provided some eligible obstacle has value below the
sentinel 100, `Obstaclescape.gradV` returns the gradient of an eligible
obstacle whose value equals `Obstaclescape.value`, is minimal among all
eligible obstacles, and is the first such minimizer in iteration order. -/
theorem C6_dominant_gradient_amended (sc : ObstaclescapeM) (setID : ℤ)
    (s : List ℚ)
    (h : ∃ i, i < sc.obstacles.length ∧ sc.eligible i = true ∧
      (sc.obstacles.getD i ObstacleM.dummy).value setID s < 100) :
    ∃ i, i < sc.obstacles.length ∧ sc.eligible i = true ∧
      sc.gradV setID s =
        (sc.obstacles.getD i ObstacleM.dummy).gradV setID s ∧
      (sc.obstacles.getD i ObstacleM.dummy).value setID s =
        sc.value setID s ∧
      (∀ j, j < sc.obstacles.length → sc.eligible j = true →
        sc.value setID s ≤
          (sc.obstacles.getD j ObstacleM.dummy).value setID s) ∧
      (∀ j, j < i → sc.eligible j = true →
        sc.value setID s <
          (sc.obstacles.getD j ObstacleM.dummy).value setID s) := by
  obtain ⟨i0, hi0, helig0, hval0⟩ := h
  obtain ⟨hfst, hle, hbound, hcase⟩ := minScanFold_spec sc.eligible
    (fun i => (sc.obstacles.getD i ObstacleM.dummy).value setID s)
    sc.obstacles.length
  have hminlt : minFold sc.eligible
      (fun i => (sc.obstacles.getD i ObstacleM.dummy).value setID s)
      sc.obstacles.length < 100 :=
    lt_of_le_of_lt (hbound i0 hi0 helig0) hval0
  rcases hcase with ⟨h100, _⟩ | ⟨hlt, he, hvv, _, hfirst⟩
  · rw [h100] at hminlt
    exact absurd hminlt (lt_irrefl 100)
  · refine ⟨(minScanFold sc.eligible
        (fun i => (sc.obstacles.getD i ObstacleM.dummy).value setID s)
        sc.obstacles.length).2, hlt, he, rfl, ?_, ?_, ?_⟩
    · rw [sc.value_eq_minFold setID s]
      exact hvv
    · intro j hj hj'
      rw [sc.value_eq_minFold setID s]
      exact hbound j hj hj'
    · intro j hj hj'
      rw [sc.value_eq_minFold setID s]
      exact hfirst j hj hj'

/-- C6 witness: one eligible obstacle with value 5 (below the sentinel):
the dominant-gradient property holds at a concrete input. -/
theorem C6_dominant_gradient_witness :
    ∃ i, i < scapeNear.obstacles.length ∧ scapeNear.eligible i = true ∧
      ObstaclescapeM.gradV scapeNear 0 [] =
        (scapeNear.obstacles.getD i ObstacleM.dummy).gradV 0 [] ∧
      (scapeNear.obstacles.getD i ObstacleM.dummy).value 0 [] =
        ObstaclescapeM.value scapeNear 0 [] ∧
      (∀ j, j < scapeNear.obstacles.length → scapeNear.eligible j = true →
        ObstaclescapeM.value scapeNear 0 [] ≤
          (scapeNear.obstacles.getD j ObstacleM.dummy).value 0 []) ∧
      (∀ j, j < i → scapeNear.eligible j = true →
        ObstaclescapeM.value scapeNear 0 [] <
          (scapeNear.obstacles.getD j ObstacleM.dummy).value 0 []) :=
  C6_dominant_gradient_amended scapeNear 0 []
    ⟨0, by decide, by decide, by decide⟩

/-- C7 counterexample: a single collision-eligible (undetected) obstacle
with footprint value 150: the claimed minimum is 150, but the code returns
the pair `(100, 0)` because the running minimum starts at the sentinel
100, so the returned value is not the minimum of the eligible footprint
values. -/
theorem C7_collision_capped_cex :
    scapeHiddenFar.collisionEligibleValues [] = [150] ∧
    ObstaclescapeM.collisionSetValue scapeHiddenFar [] = (100, 0) ∧
    (ObstaclescapeM.collisionSetValue scapeHiddenFar []).1 ≠ 150 := by
  refine ⟨by decide, by decide, by decide⟩

/-- C7 amended: provided some obstacle with `destroyed == false` and
`undetected == true` has footprint value below the sentinel 100,
`collisionSetValue` returns the pair of the minimal such value and the
first index achieving it. -/
theorem C7_collision_argmin_amended (sc : ObstaclescapeM) (s : List ℚ)
    (h : ∃ i, i < sc.obstacles.length ∧ sc.collisionEligible i = true ∧
      (sc.obstacles.getD i ObstacleM.dummy).collisionSetValue s < 100) :
    ∃ i, i < sc.obstacles.length ∧ sc.collisionEligible i = true ∧
      sc.collisionSetValue s =
        ((sc.obstacles.getD i ObstacleM.dummy).collisionSetValue s, i) ∧
      (∀ j, j < sc.obstacles.length → sc.collisionEligible j = true →
        (sc.obstacles.getD i ObstacleM.dummy).collisionSetValue s ≤
          (sc.obstacles.getD j ObstacleM.dummy).collisionSetValue s) ∧
      (∀ j, j < i → sc.collisionEligible j = true →
        (sc.obstacles.getD i ObstacleM.dummy).collisionSetValue s <
          (sc.obstacles.getD j ObstacleM.dummy).collisionSetValue s) := by
  obtain ⟨i0, hi0, helig0, hval0⟩ := h
  obtain ⟨hfst, hle, hbound, hcase⟩ := minScanFold_spec sc.collisionEligible
    (fun i => (sc.obstacles.getD i ObstacleM.dummy).collisionSetValue s)
    sc.obstacles.length
  have hminlt : minFold sc.collisionEligible
      (fun i => (sc.obstacles.getD i ObstacleM.dummy).collisionSetValue s)
      sc.obstacles.length < 100 :=
    lt_of_le_of_lt (hbound i0 hi0 helig0) hval0
  rcases hcase with ⟨h100, _⟩ | ⟨hlt, he, hvv, _, hfirst⟩
  · rw [h100] at hminlt
    exact absurd hminlt (lt_irrefl 100)
  · refine ⟨(minScanFold sc.collisionEligible
        (fun i => (sc.obstacles.getD i ObstacleM.dummy).collisionSetValue s)
        sc.obstacles.length).2, hlt, he, ?_, ?_, ?_⟩
    · rw [sc.collision_eq_minScanFold s, Prod.ext_iff]
      exact ⟨by rw [hfst, hvv], rfl⟩
    · intro j hj hj'
      rw [← hvv] at hbound
      exact hbound j hj hj'
    · intro j hj hj'
      rw [← hvv] at hfirst
      exact hfirst j hj hj'

/-- C7 witness: one undetected obstacle with footprint value 7 (below the
sentinel): the argmin-pair property holds at a concrete input. -/
theorem C7_collision_argmin_witness :
    ∃ i, i < scapeHiddenNear.obstacles.length ∧
      scapeHiddenNear.collisionEligible i = true ∧
      ObstaclescapeM.collisionSetValue scapeHiddenNear [] =
        ((scapeHiddenNear.obstacles.getD i ObstacleM.dummy).collisionSetValue [],
          i) ∧
      (∀ j, j < scapeHiddenNear.obstacles.length →
        scapeHiddenNear.collisionEligible j = true →
        (scapeHiddenNear.obstacles.getD i ObstacleM.dummy).collisionSetValue [] ≤
          (scapeHiddenNear.obstacles.getD j ObstacleM.dummy).collisionSetValue []) ∧
      (∀ j, j < i → scapeHiddenNear.collisionEligible j = true →
        (scapeHiddenNear.obstacles.getD i ObstacleM.dummy).collisionSetValue [] <
          (scapeHiddenNear.obstacles.getD j ObstacleM.dummy).collisionSetValue []) :=
  C7_collision_argmin_amended scapeHiddenNear []
    ⟨0, by decide, by decide, by decide⟩

/-- C8: on a periodic axis `d`, shifting a state by one full period
`gN[d]*gdx[d]` leaves `loaded_SafeSet.value` unchanged, provided the
unshifted state's raw cell indices on that axis lie inside `[0, gN[d])` (so
the shifted copy stays within one period of the index range). -/
theorem C8_periodic_wraparound (g : ReachsetM) (s s' : List ℚ) (d : ℕ)
    (hlen : s'.length = s.length)
    (hper : g.gperiodicity.getD d false = true)
    (hdx : 0 < g.gdx.getD d 0)
    (hlow : 0 ≤ rawLowIdx g s d)
    (hhigh : rawHighIdx g s d < g.gN.getD d 0)
    (hshift : s'.getD d 0 = s.getD d 0 + (g.gN.getD d 0 : ℚ) * g.gdx.getD d 0)
    (hother : ∀ e, e ≠ d → s'.getD e 0 = s.getD e 0) :
    loadedValue g s' = loadedValue g s := by
  have hdxne : g.gdx.getD d 0 ≠ 0 := ne_of_gt hdx
  have hfloorceil : rawLowIdx g s d ≤ rawHighIdx g s d := Int.floor_le_ceil _
  have hhigh0 : 0 ≤ rawHighIdx g s d := le_trans hlow hfloorceil
  have hlowN : rawLowIdx g s d < g.gN.getD d 0 := lt_of_le_of_lt hfloorceil hhigh
  have hdl : ∀ e, distanceToLower g s' e = distanceToLower g s e := by
    intro e
    by_cases he : e = d
    · subst he
      exact distanceToLower_shift g s s' e hdxne hshift
    · unfold distanceToLower
      rw [rawLowIdx_congr g s s' e (hother e he),
        rawHighIdx_congr g s s' e (hother e he), hother e he]
  have hdh : ∀ e, distanceToHigher g s' e = distanceToHigher g s e := by
    intro e
    by_cases he : e = d
    · subst he
      exact distanceToHigher_shift g s s' e hdxne hshift
    · unfold distanceToHigher
      rw [rawLowIdx_congr g s s' e (hother e he),
        rawHighIdx_congr g s s' e (hother e he), hother e he]
  have hwl : ∀ e, wrapIdx g e (rawLowIdx g s' e) =
      wrapIdx g e (rawLowIdx g s e) := by
    intro e
    by_cases he : e = d
    · subst he
      rw [rawLowIdx_shift g s s' e hdxne hshift,
        wrapIdx_shift_down g e _ hper hlow hlowN,
        wrapIdx_of_mem g e _ hper hlow hlowN]
    · rw [rawLowIdx_congr g s s' e (hother e he)]
  have hwh : ∀ e, wrapIdx g e (rawHighIdx g s' e) =
      wrapIdx g e (rawHighIdx g s e) := by
    intro e
    by_cases he : e = d
    · subst he
      rw [rawHighIdx_shift g s s' e hdxne hshift,
        wrapIdx_shift_down g e _ hper hhigh0 hhigh,
        wrapIdx_of_mem g e _ hper hhigh0 hhigh]
    · rw [rawHighIdx_congr g s s' e (hother e he)]
  unfold loadedValue
  rw [hlen]
  congr 1
  apply Finset.sum_congr rfl
  intro c _
  have hvol : cornerVolume g s' c = cornerVolume g s c := by
    unfold cornerVolume
    rw [hlen]
    exact Finset.prod_congr rfl (fun e _ => by rw [hdl e, hdh e])
  have hidx : cornerIndex g s' c = cornerIndex g s c := by
    unfold cornerIndex
    rw [hlen]
    exact List.map_congr_left (fun e _ => by rw [hwl e, hwh e])
  rw [hvol, hidx]

/-- C8 witness: on the periodic four-point grid with spacing 1, the value
at `[9/2]` (one full period above `[1/2]`) equals the value at `[1/2]`. -/
theorem C8_periodic_wraparound_witness :
    gridPeriodicFour.gperiodicity.getD 0 false = true ∧
    loadedValue gridPeriodicFour [9/2] = loadedValue gridPeriodicFour [1/2] :=
  ⟨by decide,
    C8_periodic_wraparound gridPeriodicFour [1/2] [9/2] 0 rfl
      (by decide) (by decide)
      (by norm_num [rawLowIdx, gridPeriodicFour, List.getD, Int.le_floor])
      (by
        have hcl : ⌈(1:ℚ)/2⌉ = 1 := by norm_num [Int.ceil_eq_iff]
        norm_num [rawHighIdx, gridPeriodicFour, List.getD, hcl])
      (by norm_num [gridPeriodicFour, List.getD])
      (fun e he => by
        cases e with
        | zero => exact absurd rfl he
        | succ n => rfl)⟩

/-- C9: the claim says every gradient component is finite everywhere,
including singular points; at the zero point of `dubIntInterval_Set` and at
the exact center of `dubinsCircle_Set` the code divides zero by zero
(`NaN`), so a non-finite component (modelled `none`) is produced. -/
theorem C9_gradV_nonfinite_at_singularity :
    dubIntInterval_gradV [0, 3] = [none, some 0] ∧
    dubinsCircle_gradV [0, 0, 0] = [none, none, some 0] := by
  constructor
  · norm_num [dubIntInterval_gradV, jsDiv]
  · simp [dubinsCircle_gradV, jsDivR]

/-- C10: with every obstacle ineligible (destroyed or undetected),
`Obstaclescape.gradV` performs no sentinel fallback: the dominant index
stays 0 and the (ineligible) first obstacle's gradient is returned, while
`Obstaclescape.value` returns the sentinel 100 in the same configuration. -/
theorem C10_gradV_no_eligible_returns_first (sc : ObstaclescapeM)
    (setID : ℤ) (s : List ℚ)
    (hne : sc.obstacles ≠ [])
    (h : ∀ i, i < sc.obstacles.length → sc.eligible i = false) :
    sc.gradV setID s =
      (sc.obstacles.getD 0 ObstacleM.dummy).gradV setID s ∧
    sc.eligible 0 = false ∧
    sc.value setID s = 100 := by
  have hscan := minScanFold_of_no_elig sc.eligible
    (fun i => (sc.obstacles.getD i ObstacleM.dummy).value setID s)
    sc.obstacles.length h
  have hfold := minFold_of_no_elig sc.eligible
    (fun i => (sc.obstacles.getD i ObstacleM.dummy).value setID s)
    sc.obstacles.length h
  refine ⟨?_, ?_, ?_⟩
  · show (sc.obstacles.getD (sc.gradScan setID s).2 ObstacleM.dummy).gradV
        setID s = _
    rw [sc.gradScan_eq_minScanFold setID s, hscan]
  · exact h 0 (List.length_pos.mpr hne)
  · rw [sc.value_eq_minFold setID s]
    exact hfold

/-- C10 witness: a scape whose only obstacle is destroyed: the gradient of
that ineligible obstacle 0 is returned while the value is the sentinel. -/
theorem C10_gradV_no_eligible_witness :
    ObstaclescapeM.gradV scapeAllDead 0 [] =
      (scapeAllDead.obstacles.getD 0 ObstacleM.dummy).gradV 0 [] ∧
    scapeAllDead.eligible 0 = false ∧
    ObstaclescapeM.value scapeAllDead 0 [] = 100 :=
  C10_gradV_no_eligible_returns_first scapeAllDead 0 []
    (List.cons_ne_nil _ _)
    (fun i hi => by
      have h1 : i < 1 := hi
      interval_cases i
      decide)

end InteractiveDubins
